import Mathlib

/-!
# Region split and heartbeat handlers of the placement driver

A shallow embedding of `server/cluster_worker.go`:
`handleRegionHeartbeat`, `handleAskSplit`, `checkSplitRegion` and
`handleReportSplit`, together with the protobuf messages they read and the
collaborators they call (region lookup, id allocator, operator history, event
posting, scheduling dispatch).

Go pointers are `Option`s (`nil` is `none`), `[]byte` keys are lists of bytes
(Go's `bytes.Equal` and `len` do not tell a nil slice from an empty one),
`uint64` values are naturals (they are only compared and copied, never
computed with), and a `(response, error)` return is a `Result`, which has a
third outcome for a run-time panic.  Every call to a collaborator is appended
to the cluster's `calls`, so that the number and the order of the calls can be
stated.
-/

namespace PD

/-! ## Messages (`metapb`, `pdpb`) -/

/-- One byte of a key. -/
abbrev Byte := Fin 256

/-- A replica descriptor, `metapb.Peer`. -/
structure Peer where
  Id : Nat
  StoreId : Nat
  deriving DecidableEq

/-- The two-part version stamp of a region, `metapb.RegionEpoch`. -/
structure RegionEpoch where
  ConfVer : Nat
  Version : Nat
  deriving DecidableEq

/-- A region descriptor, `metapb.Region`. -/
structure Region where
  Id : Nat
  StartKey : List Byte
  EndKey : List Byte
  RegionEpoch : Option RegionEpoch
  Peers : List Peer
  deriving DecidableEq

/-- The request of the pre-split handshake, `pdpb.AskSplitRequest`. -/
structure AskSplitRequest where
  Region : Option Region
  deriving DecidableEq

/-- The response of the pre-split handshake, `pdpb.AskSplitResponse`. -/
structure AskSplitResponse where
  NewRegionId : Nat
  NewPeerIds : List Nat
  deriving DecidableEq

/-- The post-split report, `pdpb.ReportSplitRequest`. -/
structure ReportSplitRequest where
  Left : Option Region
  Right : Option Region
  deriving DecidableEq

/-- The empty acknowledgement, `pdpb.ReportSplitResponse`. -/
structure ReportSplitResponse where
  deriving DecidableEq

/-! ### The generated nil-safe getters -/

/-- Getter `(*metapb.RegionEpoch).GetVersion`: 0 on a nil receiver. -/
def RegionEpoch.GetVersion : Option RegionEpoch → Nat
  | none => 0
  | some e => e.Version

/-- Getter `(*metapb.RegionEpoch).GetConfVer`: 0 on a nil receiver. -/
def RegionEpoch.GetConfVer : Option RegionEpoch → Nat
  | none => 0
  | some e => e.ConfVer

/-- Getter `(*metapb.Region).GetId`: 0 on a nil receiver. -/
def Region.GetId : Option Region → Nat
  | none => 0
  | some r => r.Id

/-- Getter `(*metapb.Region).GetStartKey`: nil on a nil receiver. -/
def Region.GetStartKey : Option Region → List Byte
  | none => []
  | some r => r.StartKey

/-- Getter `(*metapb.Region).GetEndKey`: nil on a nil receiver. -/
def Region.GetEndKey : Option Region → List Byte
  | none => []
  | some r => r.EndKey

/-- Getter `(*metapb.Region).GetRegionEpoch`: nil on a nil receiver. -/
def Region.GetRegionEpoch : Option Region → Option PD.RegionEpoch
  | none => none
  | some r => r.RegionEpoch

/-- Getter `(*metapb.Region).GetPeers`: nil on a nil receiver. -/
def Region.GetPeers : Option Region → List Peer
  | none => []
  | some r => r.Peers

/-- Getter `(*pdpb.AskSplitRequest).GetRegion`: nil on a nil receiver. -/
def AskSplitRequest.GetRegion : Option AskSplitRequest → Option PD.Region
  | none => none
  | some m => m.Region

/-- Getter `(*pdpb.ReportSplitRequest).GetLeft`: nil on a nil receiver. -/
def ReportSplitRequest.GetLeft : Option ReportSplitRequest → Option Region
  | none => none
  | some m => m.Left

/-- Getter `(*pdpb.ReportSplitRequest).GetRight`: nil on a nil receiver. -/
def ReportSplitRequest.GetRight : Option ReportSplitRequest → Option Region
  | none => none
  | some m => m.Right

/-! ## Byte-slice comparison (Go's `bytes` package) -/

/-- Go's `bytes.Equal`. -/
def bytesEqual (a b : List Byte) : Bool := decide (a = b)

/-- Go's `bytes.Compare`: -1, 0 or +1 as `a` is lexicographically less than,
equal to or greater than `b`. -/
def bytesCompare : List Byte → List Byte → Int
  | [], [] => 0
  | [], _ :: _ => -1
  | _ :: _, [] => 1
  | a :: as, b :: bs =>
    if a < b then -1 else if b < a then 1 else bytesCompare as bs

/-! ## Operators, events, errors -/

/-- Modelled from the spec: `regionInfo`, whose declaration is not in the
source file; the heartbeat handler's input is "a region descriptor reported by
a storage node" (id, peers, epoch, keys), read through `GetPeers`. -/
structure regionInfo where
  Region : Option Region
  deriving DecidableEq

/-- The peers of a reported region, `region.GetPeers()`. -/
def regionInfo.GetPeers (region : regionInfo) : List Peer :=
  Region.GetPeers region.Region

/-- Modelled from the spec: the `SplitOperator` record, whose declaration is
not in the source file: "an audit record of one split" that "references the
synthesized pre-split origin region and the two resulting regions (left,
right)". -/
structure SplitOperator where
  Origin : Option Region
  Left : Option Region
  Right : Option Region
  deriving DecidableEq

/-- Modelled from the spec: `newSplitOperator`, whose body is not in the source
file: "construct a `SplitOperator` record from (origin, left, right)". -/
def newSplitOperator (origin left right : Option Region) : SplitOperator :=
  { Origin := origin, Left := left, Right := right }

/-- The lifecycle events of an operator; the handlers here post only
`evtEnd`. -/
inductive Event where
  | evtStart
  | evtEnd
  deriving DecidableEq

/-- The errors the handlers build: the three `errors.Errorf`/`errors.New`
messages, an error handed back by the id allocator, and `errors.Trace` around
either. -/
inductive Error where
  /-- The message "invalid region, zero region peer count - %v". -/
  | invalidRegion (region : regionInfo)
  /-- The message "invalid region epoch, request: %v, currenrt: %v". -/
  | invalidRegionEpoch (request current : Option RegionEpoch)
  /-- The message "invalid split region". -/
  | invalidSplitRegion
  /-- An error returned by `idAlloc.Alloc`. -/
  | idAlloc (msg : String)
  /-- The wrapper `errors.Trace(err)`. -/
  | trace (cause : Error)
  deriving DecidableEq

/-- What a handler call does: return a response with a nil error, return a nil
response with an error, or panic. -/
inductive Result (α : Type) where
  | ok (response : α)
  | error (err : Error)
  | fault
  deriving DecidableEq

/-- A call made to one of the cluster's collaborators. -/
inductive Call where
  /-- The lookup `c.getRegion(regionKey)`. -/
  | getRegion (regionKey : List Byte)
  /-- The allocation `c.s.idAlloc.Alloc()`. -/
  | idAlloc
  /-- The append `c.coordinator.histories.add(regionID, op)`. -/
  | historiesAdd (regionID : Nat) (op : SplitOperator)
  /-- The post `c.coordinator.postEvent(op, evt)`. -/
  | postEvent (op : SplitOperator) (evt : Event)
  /-- The dispatch `c.coordinator.dispatch(region)`. -/
  | dispatch (region : regionInfo)
  deriving DecidableEq

/-- Whether a call is an id allocation. -/
def Call.isAlloc : Call → Bool
  | .idAlloc => true
  | _ => false

/-! ## The cluster and its collaborators -/

/-- The cluster as the handlers see it: how its collaborators answer, and the
calls made to them so far (oldest first).  `ρ` is the heartbeat response the
scheduling dispatcher produces. -/
structure RaftCluster (ρ : Type) where
  /-- Modelled from the spec: the region directory, `Lookup(key) -> (Region,
  error)`; the body of `getRegion` is not in the source file, which shows only
  that it returns two values, the region first. -/
  lookup : List Byte → Option Region × Option String
  /-- The id allocator: what its `n`-th call (from 0) returns. -/
  alloc : Nat → Except String Nat
  /-- The scheduling dispatcher: the response it produces for a region. -/
  dispatcher : regionInfo → ρ
  /-- The calls made so far. -/
  calls : List Call

variable {ρ : Type}

/-- The number of id allocations made so far. -/
def RaftCluster.allocCalls (c : RaftCluster ρ) : Nat :=
  (c.calls.filter Call.isAlloc).length

/-- The operation log: the `histories.add` calls so far, as (key, operator). -/
def RaftCluster.histories (c : RaftCluster ρ) : List (Nat × SplitOperator) :=
  c.calls.filterMap fun
    | .historiesAdd k op => some (k, op)
    | _ => none

/-- The posted events: the `postEvent` calls so far. -/
def RaftCluster.events (c : RaftCluster ρ) : List (SplitOperator × Event) :=
  c.calls.filterMap fun
    | .postEvent op evt => some (op, evt)
    | _ => none

/-- The regions handed to the dispatcher so far. -/
def RaftCluster.dispatched (c : RaftCluster ρ) : List regionInfo :=
  c.calls.filterMap fun
    | .dispatch r => some r
    | _ => none

/-- Record one call. -/
def RaftCluster.record (c : RaftCluster ρ) (call : Call) : RaftCluster ρ :=
  { c with calls := c.calls ++ [call] }

/-- The lookup `c.getRegion(regionKey)`: both returned values. -/
def RaftCluster.getRegion (c : RaftCluster ρ) (regionKey : List Byte) :
    (Option Region × Option String) × RaftCluster ρ :=
  (c.lookup regionKey, c.record (.getRegion regionKey))

/-- The allocation `c.s.idAlloc.Alloc()`. -/
def RaftCluster.Alloc (c : RaftCluster ρ) : Except String Nat × RaftCluster ρ :=
  (c.alloc c.allocCalls, c.record .idAlloc)

/-- The append `c.coordinator.histories.add(regionID, op)`. -/
def RaftCluster.historiesAdd (c : RaftCluster ρ) (regionID : Nat) (op : SplitOperator) :
    RaftCluster ρ :=
  c.record (.historiesAdd regionID op)

/-- The post `c.coordinator.postEvent(op, evt)`. -/
def RaftCluster.postEvent (c : RaftCluster ρ) (op : SplitOperator) (evt : Event) :
    RaftCluster ρ :=
  c.record (.postEvent op evt)

/-- The dispatch `c.coordinator.dispatch(region)`. -/
def RaftCluster.dispatch (c : RaftCluster ρ) (region : regionInfo) : ρ × RaftCluster ρ :=
  (c.dispatcher region, c.record (.dispatch region))

/-! ## The handlers -/

/-- The heartbeat handler `handleRegionHeartbeat`, for a non-nil `region`. -/
def handleRegionHeartbeat (c : RaftCluster ρ) (region : regionInfo) :
    Result ρ × RaftCluster ρ :=
  if region.GetPeers.length = 0 then
    (.error (.invalidRegion region), c)
  else
    let (resp, c) := c.dispatch region
    (.ok resp, c)

/-- The loop `for i := 0; i < len(peerIDs); i++` of `handleAskSplit`, entered at
index `i` with `remaining = len(peerIDs) - i` iterations to go: each iteration
stores a fresh id at `peerIDs[i]`, or returns the traced allocator error. -/
def allocPeerIDs : Nat → RaftCluster ρ → List Nat → Nat → Result (List Nat) × RaftCluster ρ
  | 0, c, peerIDs, _ => (.ok peerIDs, c)
  | remaining + 1, c, peerIDs, i =>
    match c.Alloc with
    | (.error err, c) => (.error (.trace (.idAlloc err)), c)
    | (.ok id, c) => allocPeerIDs remaining c (peerIDs.set i id) (i + 1)

/-- The pre-split handshake `handleAskSplit`. -/
def handleAskSplit (c : RaftCluster ρ) (request : Option AskSplitRequest) :
    Result AskSplitResponse × RaftCluster ρ :=
  let reqRegion := AskSplitRequest.GetRegion request
  let startKey := Region.GetStartKey reqRegion
  let ((region, _), c) := c.getRegion startKey
  let reqRegionEpoch := Region.GetRegionEpoch reqRegion
  let regionEpoch := Region.GetRegionEpoch region
  if RegionEpoch.GetVersion reqRegionEpoch < RegionEpoch.GetVersion regionEpoch ∨
      RegionEpoch.GetConfVer reqRegionEpoch < RegionEpoch.GetConfVer regionEpoch then
    (.error (.invalidRegionEpoch reqRegionEpoch regionEpoch), c)
  else
    match c.Alloc with
    | (.error err, c) => (.error (.trace (.idAlloc err)), c)
    | (.ok newRegionID, c) =>
      -- `request.Region.Peers` is read through the fields, not the getters
      match request with
      | none => (.fault, c)
      | some request =>
        match request.Region with
        | none => (.fault, c)
        | some reqRegion =>
          let peerIDs := List.replicate reqRegion.Peers.length 0
          match allocPeerIDs peerIDs.length c peerIDs 0 with
          | (.ok peerIDs, c) => (.ok { NewRegionId := newRegionID, NewPeerIds := peerIDs }, c)
          | (.error err, c) => (.error err, c)
          | (.fault, c) => (.fault, c)

/-- The split validator `checkSplitRegion`: `none` is a nil error. -/
def checkSplitRegion (left right : Option Region) : Option Error :=
  if left = none ∨ right = none then
    some .invalidSplitRegion
  else if !bytesEqual (Region.GetEndKey left) (Region.GetStartKey right) then
    some .invalidSplitRegion
  else if (Region.GetEndKey right).length = 0 ∨
      bytesCompare (Region.GetStartKey left) (Region.GetEndKey right) < 0 then
    none
  else
    some .invalidSplitRegion

/-- The post-split confirmation `handleReportSplit`. -/
def handleReportSplit (c : RaftCluster ρ) (request : Option ReportSplitRequest) :
    Result ReportSplitResponse × RaftCluster ρ :=
  let left := ReportSplitRequest.GetLeft request
  let right := ReportSplitRequest.GetRight request
  match checkSplitRegion left right with
  | some err => (.error (.trace err), c)
  | none =>
    -- `proto.Clone(left).(*metapb.Region)`, then two field writes through it
    match left with
    | none => (.fault, c)
    | some cloned =>
      let originRegion := { cloned with RegionEpoch := none }
      let originRegion := { originRegion with EndKey := Region.GetEndKey right }
      let op := newSplitOperator (some originRegion) left right
      let c := c.historiesAdd (Region.GetId (some originRegion)) op
      let c := c.postEvent op .evtEnd
      (.ok {}, c)

/-! ## Concrete inputs

The keys are single ASCII letters: "a" is 97, "g" is 103, "m" is 109, "n" is
110. -/

/-- A cluster whose directory is unreachable (every lookup returns no region and
an error), whose allocator hands out 100, 101, 102, ... and whose dispatcher
answers with the number of peers of the region. -/
def unreachableDirectory : RaftCluster Nat :=
  { lookup := fun _ => (none, some "lookup timeout")
    alloc := fun n => .ok (100 + n)
    dispatcher := fun region => region.GetPeers.length
    calls := [] }

/-- A cluster whose directory holds no region at all (every lookup returns no
region and no error), with the same allocator and dispatcher. -/
def emptyDirectory : RaftCluster Nat :=
  { lookup := fun _ => (none, none)
    alloc := fun n => .ok (100 + n)
    dispatcher := fun region => region.GetPeers.length
    calls := [] }

/-- A cluster whose directory knows one region, with epoch (confVer 3,
version 5), for every key. -/
def knownDirectory : RaftCluster Nat :=
  { lookup := fun key =>
      (some { Id := 1, StartKey := key, EndKey := [],
              RegionEpoch := some { ConfVer := 3, Version := 5 },
              Peers := [{ Id := 11, StoreId := 1 }] }, none)
    alloc := fun n => .ok (100 + n)
    dispatcher := fun region => region.GetPeers.length
    calls := [] }

/-- The region with id 1 from "a" to "m", with two peers and the given epoch. -/
def leftAM (epoch : Option RegionEpoch) : Region :=
  { Id := 1, StartKey := [97], EndKey := [109], RegionEpoch := epoch,
    Peers := [{ Id := 11, StoreId := 1 }, { Id := 12, StoreId := 2 }] }

/-- The region with id 2 from `startKey` to `endKey`, with two peers. -/
def rightOf (startKey endKey : List Byte) : Region :=
  { Id := 2, StartKey := startKey, EndKey := endKey,
    RegionEpoch := some { ConfVer := 3, Version := 6 },
    Peers := [{ Id := 21, StoreId := 1 }, { Id := 22, StoreId := 2 }] }

/-- The report of left "a".."m" and right `startKey`..`endKey`. -/
def reportAM (startKey endKey : List Byte) : ReportSplitRequest :=
  { Left := some (leftAM (some { ConfVer := 3, Version := 6 })),
    Right := some (rightOf startKey endKey) }

/-! ## Lexicographic order and `bytesCompare` -/

/-- The result of `bytesCompare` is negative exactly when the first key comes
strictly before the second in the lexicographic order on bytes. -/
theorem bytesCompare_neg_iff (a b : List Byte) :
    bytesCompare a b < 0 ↔ List.Lex (· < ·) a b := by
  induction a generalizing b with
  | nil =>
    cases b with
    | nil => simp [bytesCompare, List.Lex.not_nil_right]
    | cons y ys => simp [bytesCompare, List.Lex.nil]
  | cons x xs ih =>
    cases b with
    | nil => simp [bytesCompare, List.Lex.not_nil_right]
    | cons y ys =>
      unfold bytesCompare
      by_cases hxy : x < y
      · simp [hxy, List.Lex.rel]
      · by_cases hyx : y < x
        · simp only [hxy, hyx, if_true, if_false]
          constructor
          · intro h; omega
          · intro h
            cases h with
            | cons h => exact absurd hyx (lt_irrefl _)
            | rel h => exact absurd h hxy
        · have hEq : x = y := le_antisymm (not_lt.mp hyx) (not_lt.mp hxy)
          subst hEq
          simp only [hxy, if_false, ih]
          constructor
          · intro h; exact List.Lex.cons h
          · intro h
            cases h with
            | cons h => exact h
            | rel h => exact absurd h hxy

/-! ## Bookkeeping of the recorded calls -/

theorem allocCalls_record_idAlloc (c : RaftCluster ρ) :
    (c.record .idAlloc).allocCalls = c.allocCalls + 1 := by
  simp [RaftCluster.allocCalls, RaftCluster.record, Call.isAlloc]

theorem allocCalls_record_getRegion (c : RaftCluster ρ) (key : List Byte) :
    (c.record (.getRegion key)).allocCalls = c.allocCalls := by
  simp [RaftCluster.allocCalls, RaftCluster.record, Call.isAlloc]

/-! ## The split validator -/

/-- The only error `checkSplitRegion` returns is "invalid split region". -/
theorem checkSplitRegion_eq_some {left right : Option Region} {err : Error}
    (h : checkSplitRegion left right = some err) : err = .invalidSplitRegion := by
  unfold checkSplitRegion at h
  split_ifs at h <;> simp_all

/-- When `checkSplitRegion` returns no error, both regions are present. -/
theorem checkSplitRegion_eq_none {left right : Option Region}
    (h : checkSplitRegion left right = none) :
    ∃ l r, left = some l ∧ right = some r := by
  unfold checkSplitRegion at h
  cases left with
  | none => simp at h
  | some l =>
    cases right with
    | none => simp at h
    | some r => exact ⟨l, r, rfl, rfl⟩

/-- C1: for present regions `left` and `right`, `checkSplitRegion` returns no
error if and only if `left.EndKey` equals `right.StartKey` and either
`right.EndKey` is empty or `left.StartKey` is lexicographically strictly less
than `right.EndKey`; whenever it returns an error, the error is "invalid split
region". -/
theorem checkSplitRegion_iff (left right : Region) :
    (checkSplitRegion (some left) (some right) = none ↔
      left.EndKey = right.StartKey ∧
        (right.EndKey = [] ∨ List.Lex (· < ·) left.StartKey right.EndKey)) ∧
    (checkSplitRegion (some left) (some right) = none ∨
      checkSplitRegion (some left) (some right) = some .invalidSplitRegion) := by
  have hlex := bytesCompare_neg_iff left.StartKey right.EndKey
  unfold checkSplitRegion
  simp only [Region.GetEndKey, Region.GetStartKey, bytesEqual]
  by_cases hadj : left.EndKey = right.StartKey
  · by_cases hend : right.EndKey = []
    · simp [hadj, hend]
    · by_cases hlt : bytesCompare left.StartKey right.EndKey < 0
      · simp [hadj, hlt, hlex.mp hlt]
      · have hnlex : ¬ List.Lex (· < ·) left.StartKey right.EndKey :=
          fun h => hlt (hlex.mpr h)
        simp [hadj, hend, hlt, hnlex]
  · simp [hadj]

/-! ## The post-split confirmation -/

/-- The origin region `handleReportSplit` builds from an accepted report. -/
theorem handleReportSplit_accepted (c : RaftCluster ρ) (request : Option ReportSplitRequest)
    (l r : Region) (hl : ReportSplitRequest.GetLeft request = some l)
    (hr : ReportSplitRequest.GetRight request = some r)
    (h : checkSplitRegion (some l) (some r) = none) :
    handleReportSplit c request =
      (.ok {},
        { c with calls := c.calls ++
          [.historiesAdd l.Id
              ⟨some { l with RegionEpoch := none, EndKey := r.EndKey }, some l, some r⟩,
            .postEvent
              ⟨some { l with RegionEpoch := none, EndKey := r.EndKey }, some l, some r⟩
              .evtEnd] }) := by
  simp [handleReportSplit, hl, hr, h, newSplitOperator, RaftCluster.historiesAdd,
    RaftCluster.postEvent, RaftCluster.record, Region.GetEndKey, Region.GetId]

/-- A report the validator refuses leaves the cluster as it was. -/
theorem handleReportSplit_refused (c : RaftCluster ρ) (request : Option ReportSplitRequest)
    (h : checkSplitRegion (ReportSplitRequest.GetLeft request)
      (ReportSplitRequest.GetRight request) ≠ none) :
    handleReportSplit c request = (.error (.trace .invalidSplitRegion), c) := by
  cases hc : checkSplitRegion (ReportSplitRequest.GetLeft request)
      (ReportSplitRequest.GetRight request) with
  | none => exact absurd hc h
  | some err =>
    have herr := checkSplitRegion_eq_some hc
    subst herr
    simp [handleReportSplit, hc]

/-- C2 (as stated, refuted): the report left "a".."m", right "m".."g" is not
refused: `handleReportSplit` returns the acknowledgement, appends an operator
and posts its end event, because "a" is less than "g". -/
theorem handleReportSplit_a_m_g_not_refused :
    (handleReportSplit unreachableDirectory (some (reportAM [109] [103]))).1 = .ok {} ∧
    ¬ ((handleReportSplit unreachableDirectory (some (reportAM [109] [103]))).1 =
          .error (.trace .invalidSplitRegion) ∧
        (handleReportSplit unreachableDirectory (some (reportAM [109] [103]))).2.calls =
          unreachableDirectory.calls) ∧
    ((handleReportSplit unreachableDirectory (some (reportAM [109] [103]))).2.histories).length
      = 1 := by
  decide

/-- C2 (amended): on every cluster, the report left "a".."m", right "m".."g" is
accepted (one operator appended under the left region's id 1, one end event
posted), while the report left "a".."m", right "m".."a", whose right end key is
not beyond the left start key, fails with the traced "invalid split region"
error and leaves the cluster unchanged. -/
theorem handleReportSplit_degenerate (c : RaftCluster ρ) :
    (∃ op, handleReportSplit c (some (reportAM [109] [103])) =
      (.ok {}, { c with calls := c.calls ++ [.historiesAdd 1 op, .postEvent op .evtEnd] })) ∧
    handleReportSplit c (some (reportAM [109] [97])) =
      (.error (.trace .invalidSplitRegion), c) := by
  refine ⟨⟨_, handleReportSplit_accepted c (some (reportAM [109] [103]))
    (leftAM (some { ConfVer := 3, Version := 6 })) (rightOf [109] [103]) rfl rfl
    (by decide)⟩, ?_⟩
  exact handleReportSplit_refused c (some (reportAM [109] [97])) (by decide)

/-- C6: when `checkSplitRegion` fails on the report's regions (one of them
absent, a gap between them, or a degenerate range), `handleReportSplit` returns
the traced "invalid split region" error and no response, and the cluster, its
operation log and its posted events are what they were before the call. -/
theorem handleReportSplit_error_unchanged (c : RaftCluster ρ)
    (request : Option ReportSplitRequest)
    (h : checkSplitRegion (ReportSplitRequest.GetLeft request)
      (ReportSplitRequest.GetRight request) ≠ none) :
    (handleReportSplit c request).1 = .error (.trace .invalidSplitRegion) ∧
    (handleReportSplit c request).2 = c ∧
    (handleReportSplit c request).2.histories = c.histories ∧
    (handleReportSplit c request).2.events = c.events := by
  rw [handleReportSplit_refused c request h]
  exact ⟨rfl, rfl, rfl, rfl⟩

/-- C6 at the report left "a".."m", right "n".."" (a gap) and at a report with no
left region. -/
theorem handleReportSplit_error_unchanged_witness :
    checkSplitRegion (some (leftAM none)) (some (rightOf [110] [])) ≠ none ∧
    (handleReportSplit unreachableDirectory (some (reportAM [110] []))).1 =
      .error (.trace .invalidSplitRegion) ∧
    (handleReportSplit unreachableDirectory (some (reportAM [110] []))).2.histories = [] ∧
    (handleReportSplit unreachableDirectory (some (reportAM [110] []))).2.events = [] ∧
    (handleReportSplit unreachableDirectory
      (some { Left := none, Right := some (rightOf [109] []) })).1 =
      .error (.trace .invalidSplitRegion) :=
  ⟨by decide,
    (handleReportSplit_error_unchanged unreachableDirectory (some (reportAM [110] []))
      (by decide)).1,
    (handleReportSplit_error_unchanged unreachableDirectory (some (reportAM [110] []))
      (by decide)).2.2.1,
    (handleReportSplit_error_unchanged unreachableDirectory (some (reportAM [110] []))
      (by decide)).2.2.2,
    (handleReportSplit_error_unchanged unreachableDirectory
      (some { Left := none, Right := some (rightOf [109] []) }) (by decide)).1⟩

/-- C7: when `checkSplitRegion` succeeds on the report's regions,
`handleReportSplit` returns the empty acknowledgement, and the calls it makes
are exactly two, in this order: one `histories.add` under the left region's id
and one `postEvent` of `evtEnd` for the same operator; so the operation log
grows by that one entry and the posted events by that one event. -/
theorem handleReportSplit_appends_then_posts (c : RaftCluster ρ)
    (request : Option ReportSplitRequest)
    (h : checkSplitRegion (ReportSplitRequest.GetLeft request)
      (ReportSplitRequest.GetRight request) = none) :
    ∃ op : SplitOperator,
      (handleReportSplit c request).1 = .ok {} ∧
      (handleReportSplit c request).2.calls = c.calls ++
        [.historiesAdd (Region.GetId (ReportSplitRequest.GetLeft request)) op,
          .postEvent op .evtEnd] ∧
      (handleReportSplit c request).2.histories = c.histories ++
        [(Region.GetId (ReportSplitRequest.GetLeft request), op)] ∧
      (handleReportSplit c request).2.events = c.events ++ [(op, .evtEnd)] ∧
      (handleReportSplit c request).2.dispatched = c.dispatched ∧
      (handleReportSplit c request).2.allocCalls = c.allocCalls := by
  obtain ⟨l, r, hl, hr⟩ := checkSplitRegion_eq_none h
  rw [hl, hr] at h
  rw [handleReportSplit_accepted c request l r hl hr h, hl]
  refine ⟨_, rfl, rfl, ?_, ?_, ?_, ?_⟩ <;>
    simp [RaftCluster.histories, RaftCluster.events, RaftCluster.dispatched,
      RaftCluster.allocCalls, Region.GetId, List.filterMap_append, Call.isAlloc]

/-- C7 at the report left "a".."m", right "m".."" on a cluster with no calls
yet. -/
theorem handleReportSplit_appends_then_posts_witness :
    checkSplitRegion (some (leftAM (some { ConfVer := 3, Version := 6 })))
      (some (rightOf [109] [])) = none ∧
    ∃ op : SplitOperator,
      (handleReportSplit unreachableDirectory (some (reportAM [109] []))).1 = .ok {} ∧
      (handleReportSplit unreachableDirectory (some (reportAM [109] []))).2.calls =
        [.historiesAdd 1 op, .postEvent op .evtEnd] :=
  ⟨by decide,
    (handleReportSplit_appends_then_posts unreachableDirectory (some (reportAM [109] []))
      (by decide)).imp fun _ hop => ⟨hop.1, hop.2.1⟩⟩

/-- C8: for an accepted report with regions `left` and `right`, the operator
that is appended and posted holds `left` and `right` unchanged, and an origin
region that has the id, start key and peers of `left`, no epoch, and the end
key of `right`. -/
theorem handleReportSplit_origin (c : RaftCluster ρ) (request : ReportSplitRequest)
    (left right : Region) (hl : request.Left = some left) (hr : request.Right = some right)
    (h : checkSplitRegion (some left) (some right) = none) :
    ∃ origin : Region,
      (handleReportSplit c (some request)).2.calls = c.calls ++
        [.historiesAdd left.Id ⟨some origin, some left, some right⟩,
          .postEvent ⟨some origin, some left, some right⟩ .evtEnd] ∧
      origin.Id = left.Id ∧ origin.StartKey = left.StartKey ∧ origin.Peers = left.Peers ∧
      origin.RegionEpoch = none ∧ origin.EndKey = right.EndKey := by
  refine ⟨{ left with RegionEpoch := none, EndKey := right.EndKey }, ?_, rfl, rfl, rfl, rfl, rfl⟩
  rw [handleReportSplit_accepted c (some request) left right hl hr h]

/-- C8 at the report left "a".."m", right "m".."": the origin spans "a" to the
empty key and has no epoch, while the recorded left region keeps its epoch and
its end key "m". -/
theorem handleReportSplit_origin_witness :
    (handleReportSplit unreachableDirectory (some (reportAM [109] []))).2.calls =
      [.historiesAdd 1
          ⟨some { Id := 1, StartKey := [97], EndKey := [], RegionEpoch := none,
                  Peers := [{ Id := 11, StoreId := 1 }, { Id := 12, StoreId := 2 }] },
            some (leftAM (some { ConfVer := 3, Version := 6 })), some (rightOf [109] [])⟩,
        .postEvent
          ⟨some { Id := 1, StartKey := [97], EndKey := [], RegionEpoch := none,
                  Peers := [{ Id := 11, StoreId := 1 }, { Id := 12, StoreId := 2 }] },
            some (leftAM (some { ConfVer := 3, Version := 6 })), some (rightOf [109] [])⟩
          .evtEnd] := by
  obtain ⟨origin, hcalls, hid, hstart, hpeers, hepoch, hend⟩ :=
    handleReportSplit_origin unreachableDirectory (reportAM [109] [])
      (leftAM (some { ConfVer := 3, Version := 6 })) (rightOf [109] []) rfl rfl (by decide)
  rw [hcalls]
  cases origin
  simp_all [unreachableDirectory, leftAM, rightOf]

/-! ## The heartbeat handler -/

/-- C9: `handleRegionHeartbeat` returns an error if and only if the region has
zero peers; with zero peers the error is "invalid region", there is no response
and the cluster is unchanged (the dispatcher is not called); with at least one
peer the dispatcher is called exactly once, on that region, and its response is
returned with no error. -/
theorem handleRegionHeartbeat_iff (c : RaftCluster ρ) (region : regionInfo) :
    ((∃ err, (handleRegionHeartbeat c region).1 = .error err) ↔
      region.GetPeers.length = 0) ∧
    ((region.GetPeers.length = 0 ∧
        handleRegionHeartbeat c region = (.error (.invalidRegion region), c)) ∨
      (0 < region.GetPeers.length ∧
        (handleRegionHeartbeat c region).1 = .ok (c.dispatcher region) ∧
        (handleRegionHeartbeat c region).2.calls = c.calls ++ [.dispatch region] ∧
        (handleRegionHeartbeat c region).2.dispatched = c.dispatched ++ [region])) := by
  by_cases h : region.GetPeers.length = 0
  · simp [handleRegionHeartbeat, h]
  · have hpos : 0 < region.GetPeers.length := Nat.pos_of_ne_zero h
    simp [handleRegionHeartbeat, h, hpos, RaftCluster.dispatch, RaftCluster.record,
      RaftCluster.dispatched, List.filterMap_append]

/-! ## The allocation loop -/

/-- The loop never panics. -/
theorem allocPeerIDs_ne_fault (remaining : Nat) (c : RaftCluster ρ) (peerIDs : List Nat)
    (i : Nat) : (allocPeerIDs remaining c peerIDs i).1 ≠ .fault := by
  induction remaining generalizing c peerIDs i with
  | zero => simp [allocPeerIDs]
  | succ n ih =>
    unfold allocPeerIDs
    cases hA : c.alloc c.allocCalls with
    | error e => simp [RaftCluster.Alloc, hA]
    | ok id => simpa [RaftCluster.Alloc, hA] using ih _ _ _

/-- The only errors of the loop are traced allocator errors. -/
theorem allocPeerIDs_error (remaining : Nat) (c : RaftCluster ρ) (peerIDs : List Nat)
    (i : Nat) (err : Error) (h : (allocPeerIDs remaining c peerIDs i).1 = .error err) :
    ∃ msg, err = .trace (.idAlloc msg) := by
  induction remaining generalizing c peerIDs i with
  | zero => simp [allocPeerIDs] at h
  | succ n ih =>
    unfold allocPeerIDs at h
    cases hA : c.alloc c.allocCalls with
    | error e =>
      simp [RaftCluster.Alloc, hA] at h
      exact ⟨e, h.symm⟩
    | ok id =>
      simp only [RaftCluster.Alloc, hA] at h
      exact ih _ _ _ h

/-- The loop only adds allocator calls. -/
theorem allocPeerIDs_allocCalls_le (remaining : Nat) (c : RaftCluster ρ) (peerIDs : List Nat)
    (i : Nat) : c.allocCalls ≤ (allocPeerIDs remaining c peerIDs i).2.allocCalls := by
  induction remaining generalizing c peerIDs i with
  | zero => simp [allocPeerIDs]
  | succ n ih =>
    unfold allocPeerIDs
    cases hA : c.alloc c.allocCalls with
    | error e => simp [RaftCluster.Alloc, hA, allocCalls_record_idAlloc]
    | ok id =>
      simp only [RaftCluster.Alloc, hA]
      have := ih (c.record .idAlloc) (peerIDs.set i id) (i + 1)
      rw [allocCalls_record_idAlloc] at this
      omega

/-- Storing at index `i` and keeping `i + 1` entries is keeping `i` entries and
appending the stored value. -/
theorem take_succ_set (l : List Nat) (i v : Nat) (h : i < l.length) :
    (l.set i v).take (i + 1) = l.take i ++ [v] := by
  induction l generalizing i with
  | nil => simp at h
  | cons x xs ih =>
    cases i with
    | zero => simp
    | succ k => simpa using ih k (by simpa using h)

/-- With an allocator that always succeeds, the loop entered at index `i` keeps
the first `i` entries, fills the rest with the next ids in allocation order,
and makes one allocator call per entry filled. -/
theorem allocPeerIDs_ok (ids : Nat → Nat) (remaining : Nat) (c : RaftCluster ρ)
    (peerIDs : List Nat) (i : Nat) (halloc : ∀ n, c.alloc n = .ok (ids n))
    (hlen : peerIDs.length = i + remaining) :
    allocPeerIDs remaining c peerIDs i =
      (.ok (peerIDs.take i ++ (List.range remaining).map fun j => ids (c.allocCalls + j)),
        { c with calls := c.calls ++ List.replicate remaining .idAlloc }) := by
  induction remaining generalizing c peerIDs i with
  | zero =>
    have : List.take i peerIDs = peerIDs := List.take_of_length_le (by omega)
    simp [allocPeerIDs, this]
  | succ n ih =>
    unfold allocPeerIDs
    simp only [RaftCluster.Alloc, halloc]
    rw [ih (c.record .idAlloc) (peerIDs.set i (ids c.allocCalls)) (i + 1) halloc
      (by simp; omega)]
    have hi : i < peerIDs.length := by omega
    rw [take_succ_set peerIDs i _ hi, allocCalls_record_idAlloc, List.range_succ_eq_map]
    simp [RaftCluster.record, List.replicate_succ, Nat.add_assoc, Nat.add_comm 1,
      Function.comp_def]

/-! ## The pre-split handshake -/

/-- A request whose epoch is behind the directory's on either dimension is
answered with the epoch error right after the lookup. -/
theorem handleAskSplit_of_stale (c : RaftCluster ρ) (request : Option AskSplitRequest)
    (h : RegionEpoch.GetVersion (Region.GetRegionEpoch (AskSplitRequest.GetRegion request)) <
        RegionEpoch.GetVersion (Region.GetRegionEpoch
          (c.lookup (Region.GetStartKey (AskSplitRequest.GetRegion request))).1) ∨
      RegionEpoch.GetConfVer (Region.GetRegionEpoch (AskSplitRequest.GetRegion request)) <
        RegionEpoch.GetConfVer (Region.GetRegionEpoch
          (c.lookup (Region.GetStartKey (AskSplitRequest.GetRegion request))).1)) :
    handleAskSplit c request =
      (.error (.invalidRegionEpoch (Region.GetRegionEpoch (AskSplitRequest.GetRegion request))
          (Region.GetRegionEpoch
            (c.lookup (Region.GetStartKey (AskSplitRequest.GetRegion request))).1)),
        c.record (.getRegion (Region.GetStartKey (AskSplitRequest.GetRegion request)))) := by
  simp [handleAskSplit, RaftCluster.getRegion, h]

/-- A request whose epoch is not behind the directory's is not answered with
the epoch error, and at least one allocator call is made for it. -/
theorem handleAskSplit_of_not_stale (c : RaftCluster ρ) (request : Option AskSplitRequest)
    (h : ¬ (RegionEpoch.GetVersion (Region.GetRegionEpoch (AskSplitRequest.GetRegion request)) <
        RegionEpoch.GetVersion (Region.GetRegionEpoch
          (c.lookup (Region.GetStartKey (AskSplitRequest.GetRegion request))).1) ∨
      RegionEpoch.GetConfVer (Region.GetRegionEpoch (AskSplitRequest.GetRegion request)) <
        RegionEpoch.GetConfVer (Region.GetRegionEpoch
          (c.lookup (Region.GetStartKey (AskSplitRequest.GetRegion request))).1))) :
    (∀ a b, (handleAskSplit c request).1 ≠ .error (.invalidRegionEpoch a b)) ∧
    c.allocCalls + 1 ≤ (handleAskSplit c request).2.allocCalls := by
  simp only [handleAskSplit, RaftCluster.getRegion, if_neg h]
  generalize hc1 : c.record (.getRegion (Region.GetStartKey
    (AskSplitRequest.GetRegion request))) = c1
  have hcalls : c1.allocCalls = c.allocCalls := by
    rw [← hc1, allocCalls_record_getRegion]
  simp only [RaftCluster.Alloc]
  cases hA : c1.alloc c1.allocCalls with
  | error e => simp [allocCalls_record_idAlloc, hcalls]
  | ok id =>
    simp only
    have hc2 : (c1.record .idAlloc).allocCalls = c.allocCalls + 1 := by
      rw [allocCalls_record_idAlloc, hcalls]
    cases request with
    | none => simp [hc2]
    | some req =>
      cases req with
      | mk region =>
        cases region with
        | none => simp [hc2]
        | some reqRegion =>
          simp only
          have hle := allocPeerIDs_allocCalls_le
            (List.replicate reqRegion.Peers.length 0).length (c1.record .idAlloc)
            (List.replicate reqRegion.Peers.length 0) 0
          have herr := allocPeerIDs_error
            (List.replicate reqRegion.Peers.length 0).length (c1.record .idAlloc)
            (List.replicate reqRegion.Peers.length 0) 0
          rw [hc2] at hle
          revert hle herr
          cases allocPeerIDs (List.replicate reqRegion.Peers.length 0).length
            (c1.record .idAlloc) (List.replicate reqRegion.Peers.length 0) 0 with
          | mk res c3 =>
            cases res with
            | ok l => intro hle _; exact ⟨fun a b => by simp, hle⟩
            | fault => intro hle _; exact ⟨fun a b => by simp, hle⟩
            | error e =>
              intro hle herr
              obtain ⟨msg, hmsg⟩ := herr e rfl
              subst hmsg
              exact ⟨fun a b => by simp, hle⟩

/-- With a present region, an epoch that is not behind, and an allocator that
always succeeds, the response holds the next ids in allocation order and the
calls made are the lookup followed by one allocation for the region and one
per peer. -/
theorem handleAskSplit_of_alloc_ok (c : RaftCluster ρ) (request : AskSplitRequest)
    (reqRegion : Region) (ids : Nat → Nat) (hreg : request.Region = some reqRegion)
    (h : ¬ (RegionEpoch.GetVersion reqRegion.RegionEpoch <
        RegionEpoch.GetVersion (Region.GetRegionEpoch (c.lookup reqRegion.StartKey).1) ∨
      RegionEpoch.GetConfVer reqRegion.RegionEpoch <
        RegionEpoch.GetConfVer (Region.GetRegionEpoch (c.lookup reqRegion.StartKey).1)))
    (halloc : ∀ n, c.alloc n = .ok (ids n)) :
    handleAskSplit c (some request) =
      (.ok { NewRegionId := ids c.allocCalls,
             NewPeerIds := (List.range reqRegion.Peers.length).map
               fun j => ids (c.allocCalls + 1 + j) },
        { c with calls := c.calls ++ .getRegion reqRegion.StartKey ::
            List.replicate (1 + reqRegion.Peers.length) .idAlloc }) := by
  have hkey : Region.GetStartKey (some reqRegion) = reqRegion.StartKey := rfl
  have hepoch : Region.GetRegionEpoch (some reqRegion) = reqRegion.RegionEpoch := rfl
  have h1 : (c.record (.getRegion reqRegion.StartKey)).alloc = c.alloc := rfl
  simp only [handleAskSplit, RaftCluster.getRegion, AskSplitRequest.GetRegion, hreg,
    hkey, hepoch, if_neg h, RaftCluster.Alloc, h1, halloc]
  rw [allocPeerIDs_ok ids _ ((c.record (.getRegion reqRegion.StartKey)).record .idAlloc) _ 0
    halloc (by simp)]
  simp only [allocCalls_record_idAlloc, allocCalls_record_getRegion]
  simp [RaftCluster.record, List.replicate_succ, Nat.add_comm 1]

/-- The allocator calls counted after a lookup and `n` allocations. -/
theorem allocCalls_after (c : RaftCluster ρ) (key : List Byte) (n : Nat) :
    RaftCluster.allocCalls
      { c with calls := c.calls ++ .getRegion key :: List.replicate n .idAlloc } =
      c.allocCalls + n := by
  have hrep : List.filter Call.isAlloc (List.replicate n Call.idAlloc) =
      List.replicate n Call.idAlloc := by
    rw [List.filter_eq_self]
    intro a ha
    rw [List.eq_of_mem_replicate ha]
    rfl
  simp [RaftCluster.allocCalls, List.filter_append, List.filter_cons, Call.isAlloc, hrep]

/-- C3 (as stated, refuted): with a directory whose lookup fails (no region, an
error), `handleAskSplit` on the region "a".."m" with two peers and no epoch
returns a successful response with ids 100, 101, 102 after three allocator
calls. -/
theorem handleAskSplit_failed_lookup_answered :
    (unreachableDirectory.lookup (leftAM none).StartKey).2 = some "lookup timeout" ∧
    (handleAskSplit unreachableDirectory (some { Region := some (leftAM none) })).1 =
      .ok { NewRegionId := 100, NewPeerIds := [101, 102] } ∧
    (handleAskSplit unreachableDirectory
      (some { Region := some (leftAM none) })).2.allocCalls = 3 := by
  refine ⟨rfl, ?_, ?_⟩ <;> decide

/-- C3 (amended): when the lookup of the request's start key returns no region,
with or without an error, `handleAskSplit` goes on as if the directory region
had epoch (0, 0): it never returns the epoch error, it makes at least one
allocator call, and, when the request's region is present and every allocator
call succeeds, it returns a response with the next ids after exactly
1 + len(peers) allocator calls. -/
theorem handleAskSplit_lookup_error_discarded (c : RaftCluster ρ) (request : AskSplitRequest)
    (err : Option String)
    (hlook : c.lookup (Region.GetStartKey request.Region) = (none, err)) :
    (∀ a b, (handleAskSplit c (some request)).1 ≠ .error (.invalidRegionEpoch a b)) ∧
    c.allocCalls + 1 ≤ (handleAskSplit c (some request)).2.allocCalls ∧
    ∀ (reqRegion : Region) (ids : Nat → Nat), request.Region = some reqRegion →
      (∀ n, c.alloc n = .ok (ids n)) →
      (handleAskSplit c (some request)).1 =
        .ok { NewRegionId := ids c.allocCalls,
              NewPeerIds := (List.range reqRegion.Peers.length).map
                fun j => ids (c.allocCalls + 1 + j) } ∧
      (handleAskSplit c (some request)).2.allocCalls =
        c.allocCalls + (1 + reqRegion.Peers.length) := by
  have hfresh : ¬ (RegionEpoch.GetVersion
        (Region.GetRegionEpoch (AskSplitRequest.GetRegion (some request))) <
        RegionEpoch.GetVersion (Region.GetRegionEpoch
          (c.lookup (Region.GetStartKey (AskSplitRequest.GetRegion (some request)))).1) ∨
      RegionEpoch.GetConfVer
        (Region.GetRegionEpoch (AskSplitRequest.GetRegion (some request))) <
        RegionEpoch.GetConfVer (Region.GetRegionEpoch
          (c.lookup (Region.GetStartKey (AskSplitRequest.GetRegion (some request)))).1)) := by
    simp [AskSplitRequest.GetRegion, hlook, Region.GetRegionEpoch, RegionEpoch.GetVersion,
      RegionEpoch.GetConfVer]
  refine ⟨(handleAskSplit_of_not_stale c (some request) hfresh).1,
    (handleAskSplit_of_not_stale c (some request) hfresh).2, ?_⟩
  intro reqRegion ids hreg halloc
  have hlook2 : c.lookup reqRegion.StartKey = (none, err) := by
    rw [hreg] at hlook
    exact hlook
  rw [handleAskSplit_of_alloc_ok c request reqRegion ids hreg
    (by simp [hlook2, Region.GetRegionEpoch, RegionEpoch.GetVersion, RegionEpoch.GetConfVer])
    halloc]
  exact ⟨rfl, allocCalls_after c _ _⟩

/-- C3 (amended) at the unreachable directory and the region "a".."m" with two
peers. -/
theorem handleAskSplit_lookup_error_discarded_witness :
    unreachableDirectory.lookup [97] = (none, some "lookup timeout") ∧
    (handleAskSplit unreachableDirectory (some { Region := some (leftAM none) })).1 =
      .ok { NewRegionId := 100,
            NewPeerIds := (List.range 2).map fun j => 100 + (0 + 1 + j) } ∧
    (handleAskSplit unreachableDirectory
      (some { Region := some (leftAM none) })).2.allocCalls = 0 + (1 + 2) :=
  ⟨rfl,
    (handleAskSplit_lookup_error_discarded unreachableDirectory
      { Region := some (leftAM none) } (some "lookup timeout") rfl).2.2
      (leftAM none) (fun n => 100 + n) rfl (fun _ => rfl)⟩

/-- C4: when the request's epoch is behind the epoch of the directory region
found for the request's start key, on the version or on the conf-version (an
absent epoch reads as 0), `handleAskSplit` returns the epoch error, no
response, and makes no allocator call; when it is behind on neither, the epoch
error is not returned. -/
theorem handleAskSplit_stale_epoch (c : RaftCluster ρ) (request : Option AskSplitRequest) :
    ((RegionEpoch.GetVersion (Region.GetRegionEpoch (AskSplitRequest.GetRegion request)) <
          RegionEpoch.GetVersion (Region.GetRegionEpoch
            (c.lookup (Region.GetStartKey (AskSplitRequest.GetRegion request))).1) ∨
        RegionEpoch.GetConfVer (Region.GetRegionEpoch (AskSplitRequest.GetRegion request)) <
          RegionEpoch.GetConfVer (Region.GetRegionEpoch
            (c.lookup (Region.GetStartKey (AskSplitRequest.GetRegion request))).1)) →
      (handleAskSplit c request).1 =
        .error (.invalidRegionEpoch
          (Region.GetRegionEpoch (AskSplitRequest.GetRegion request))
          (Region.GetRegionEpoch
            (c.lookup (Region.GetStartKey (AskSplitRequest.GetRegion request))).1)) ∧
      (handleAskSplit c request).2.allocCalls = c.allocCalls) ∧
    ((RegionEpoch.GetVersion (Region.GetRegionEpoch
            (c.lookup (Region.GetStartKey (AskSplitRequest.GetRegion request))).1) ≤
          RegionEpoch.GetVersion (Region.GetRegionEpoch (AskSplitRequest.GetRegion request)) ∧
        RegionEpoch.GetConfVer (Region.GetRegionEpoch
            (c.lookup (Region.GetStartKey (AskSplitRequest.GetRegion request))).1) ≤
          RegionEpoch.GetConfVer
            (Region.GetRegionEpoch (AskSplitRequest.GetRegion request))) →
      ∀ a b, (handleAskSplit c request).1 ≠ .error (.invalidRegionEpoch a b)) := by
  constructor
  · intro h
    rw [handleAskSplit_of_stale c request h]
    exact ⟨rfl, allocCalls_record_getRegion c _⟩
  · intro h
    exact (handleAskSplit_of_not_stale c request (by omega)).1

/-- C4 at the directory region of epoch (confVer 3, version 5): a request at
(3, 4) gets the epoch error without any allocator call, a request at (3, 5)
does not get it. -/
theorem handleAskSplit_stale_epoch_witness :
    ((handleAskSplit knownDirectory
        (some { Region := some (leftAM (some { ConfVer := 3, Version := 4 })) })).1 =
        .error (.invalidRegionEpoch (some { ConfVer := 3, Version := 4 })
          (some { ConfVer := 3, Version := 5 })) ∧
      (handleAskSplit knownDirectory
        (some { Region := some (leftAM (some { ConfVer := 3, Version := 4 })) })).2.allocCalls
        = 0) ∧
    (handleAskSplit knownDirectory
        (some { Region := some (leftAM (some { ConfVer := 3, Version := 5 })) })).1 ≠
      .error (.invalidRegionEpoch (some { ConfVer := 3, Version := 5 })
        (some { ConfVer := 3, Version := 5 })) :=
  ⟨(handleAskSplit_stale_epoch knownDirectory
      (some { Region := some (leftAM (some { ConfVer := 3, Version := 4 })) })).1
      (by decide),
    (handleAskSplit_stale_epoch knownDirectory
      (some { Region := some (leftAM (some { ConfVer := 3, Version := 5 })) })).2
      (by decide) _ _⟩

/-- C5: for a request whose region is present and whose epoch is at least the
directory region's on both the version and the conf-version, and an allocator
whose every call succeeds with ids that strictly increase from call to call,
`handleAskSplit` makes exactly 1 + len(peers) allocator calls and returns a
response holding the first id as `NewRegionId` and the following len(peers)
ids, in allocation order, as `NewPeerIds`; these ids are pairwise distinct. -/
theorem handleAskSplit_allocates (c : RaftCluster ρ) (request : AskSplitRequest)
    (reqRegion : Region) (ids : Nat → Nat) (hreg : request.Region = some reqRegion)
    (hver : RegionEpoch.GetVersion (Region.GetRegionEpoch (c.lookup reqRegion.StartKey).1) ≤
      RegionEpoch.GetVersion reqRegion.RegionEpoch)
    (hconf : RegionEpoch.GetConfVer (Region.GetRegionEpoch (c.lookup reqRegion.StartKey).1) ≤
      RegionEpoch.GetConfVer reqRegion.RegionEpoch)
    (hfresh : StrictMono ids) (halloc : ∀ n, c.alloc n = .ok (ids n)) :
    (handleAskSplit c (some request)).2.allocCalls =
      c.allocCalls + (1 + reqRegion.Peers.length) ∧
    ∃ resp : AskSplitResponse,
      (handleAskSplit c (some request)).1 = .ok resp ∧
      resp.NewRegionId = ids c.allocCalls ∧
      resp.NewPeerIds =
        (List.range reqRegion.Peers.length).map (fun j => ids (c.allocCalls + 1 + j)) ∧
      resp.NewPeerIds.length = reqRegion.Peers.length ∧
      (resp.NewRegionId :: resp.NewPeerIds).Nodup ∧
      (resp.NewRegionId :: resp.NewPeerIds).Sorted (· < ·) := by
  rw [handleAskSplit_of_alloc_ok c request reqRegion ids hreg (by omega) halloc]
  refine ⟨allocCalls_after c _ _, _, rfl, rfl, rfl, by simp, ?_⟩
  have hsorted : (ids c.allocCalls ::
      (List.range reqRegion.Peers.length).map (fun j => ids (c.allocCalls + 1 + j))).Sorted
      (· < ·) := by
    have hlist : ids c.allocCalls ::
        (List.range reqRegion.Peers.length).map (fun j => ids (c.allocCalls + 1 + j)) =
        (List.range (reqRegion.Peers.length + 1)).map (fun j => ids (c.allocCalls + j)) := by
      rw [List.range_succ_eq_map]
      simp [Function.comp_def, Nat.add_assoc, Nat.add_comm 1]
    rw [hlist]
    refine List.Pairwise.map _ ?_ (List.pairwise_lt_range _)
    intro a b hab
    exact hfresh (by omega)
  exact ⟨hsorted.nodup, hsorted⟩

/-- C5 at the directory region of epoch (3, 5), a request at (3, 5) with two
peers, and the allocator 100, 101, 102, ... -/
theorem handleAskSplit_allocates_witness :
    (handleAskSplit knownDirectory
      (some { Region := some (leftAM (some { ConfVer := 3, Version := 5 })) })).2.allocCalls
      = 0 + (1 + 2) ∧
    ∃ resp : AskSplitResponse,
      (handleAskSplit knownDirectory
        (some { Region := some (leftAM (some { ConfVer := 3, Version := 5 })) })).1 =
        .ok resp ∧
      resp.NewRegionId = 100 ∧ resp.NewPeerIds = [101, 102] ∧
      (resp.NewRegionId :: resp.NewPeerIds).Nodup := by
  obtain ⟨hcalls, resp, hresp, hid, hpeers, _, hnodup, _⟩ :=
    handleAskSplit_allocates knownDirectory
      { Region := some (leftAM (some { ConfVer := 3, Version := 5 })) }
      (leftAM (some { ConfVer := 3, Version := 5 })) (fun n => 100 + n) rfl
      (by decide) (by decide) (fun a b hab => Nat.add_lt_add_left hab 100) (fun _ => rfl)
  exact ⟨hcalls, resp, hresp, hid, hpeers, hnodup⟩

/-- C10 (the code departs from it): on a request with no region, with a
directory that holds no region and an allocator that succeeds, `handleAskSplit`
passes the epoch check, makes one allocation and then panics on
`request.Region.Peers`; the same happens on a nil request. -/
theorem handleAskSplit_nil_region_faults :
    (handleAskSplit emptyDirectory (some { Region := none })).1 = .fault ∧
    (handleAskSplit emptyDirectory (some { Region := none })).2.calls =
      [.getRegion [], .idAlloc] ∧
    (handleAskSplit emptyDirectory none).1 = .fault := by
  decide

end PD
